import Mathlib

/-!
Shallow embedding of the `snipster` snippet manager.

The Python sources embedded here are `src/snipster/models.py` (the `Snippet`
record, its `Language` enumeration, the raw constructor and the `create` /
`create_snippet` factories), `src/snipster/repo.py` (the shared `_update_tags`
helper and the three repository back-ends `InMemorySnippetRepo`,
`DBSnippetRepo`, `JSONSnippetRepo`), and the relevant route handlers of
`src/snipster/api.py`.

Modelling conventions:
* timestamps (`datetime`) are abstract instants modelled as `Nat` ticks; every
  `datetime.now()` call site receives the instant as an explicit argument;
* Python exceptions become `Except RepoError`: `SnippetNotFoundError` is
  `RepoError.notFound`, `ValueError` (the "invalid input" kind) is
  `RepoError.invalidInput`;
* `list(set(xs))` in `_update_tags` iterates a Python `set`, whose order is
  unspecified; it is modelled as first-occurrence deduplication (`pySetList`).
  Every statement proved below is insensitive to that choice: results are
  either sorted afterwards (`sort = true`) or compared at set level;
* `str.lower` / `str.strip` are modelled on the ASCII subset exercised by the
  program (Lean's `Char.toLower` and whitespace trimming agree with Python
  there).
-/

namespace Snipster

/-- Abstract instant standing for a Python `datetime` value. -/
abbrev DateTime := Nat

/-- The `Language` enumeration of `models.py`. -/
inductive Language where
  | python | javascript | java | cSharp | cPlusPlus | ruby | php | go
  | swift | kotlin | typescript | rust | html | css
deriving DecidableEq, Repr

/-- The `Snippet` record of `models.py` (`id` is optional until persisted;
`tags` is the comma-joined string or absent; timestamps are optional). -/
structure Snippet where
  id : Option Nat
  title : String
  code : String
  description : Option String
  language : Language
  tags : Option String
  favorite : Bool
  created_at : Option DateTime
  updated_at : Option DateTime
deriving DecidableEq, Repr

/-- Domain errors: `notFound` models `SnippetNotFoundError`, `invalidInput`
models the `ValueError` raised for bad tagging input. -/
inductive RepoError where
  | notFound (msg : String)
  | invalidInput (msg : String)
deriving DecidableEq, Repr

/-- The message carried by a domain error. -/
def RepoError.msg : RepoError → String
  | .notFound m => m
  | .invalidInput m => m

/-- The `"Snippet with ID {id} not found."` message used by every back-end. -/
def notFoundMsg (id : Nat) : String :=
  "Snippet with ID " ++ toString id ++ " not found."

/-- Helper for `str.split(",")`: accumulates the current piece (reversed). -/
def splitCommaGo : List Char → List Char → List String
  | acc, [] => [String.mk acc.reverse]
  | acc, c :: cs =>
    if c = ',' then String.mk acc.reverse :: splitCommaGo [] cs
    else splitCommaGo (c :: acc) cs

/-- Python's `s.split(",")` (never returns an empty list). -/
def splitComma (s : String) : List String := splitCommaGo [] s.data

/-- Python's `",".join(xs)`. -/
def joinComma : List String → String
  | [] => ""
  | [x] => x
  | x :: xs => x ++ "," ++ joinComma xs

/-- Python's `s.strip()` on the ASCII whitespace actually used. -/
def pyStrip (s : String) : String :=
  String.mk (((s.data.dropWhile Char.isWhitespace).reverse.dropWhile
      Char.isWhitespace).reverse)

/-- Python's `s.lower()` on the ASCII subset used by the program. -/
def pyLower (s : String) : String := String.mk (s.data.map Char.toLower)

/-- Substring test on character lists: Python's `needle in hay`. -/
def containsSub (needle : List Char) : List Char → Bool
  | [] => needle.isEmpty
  | c :: rest => needle.isPrefixOf (c :: rest) || containsSub needle rest

/-- First-occurrence deduplication with an accumulator of already-seen
elements; models `list(set(xs))` (see the header note on set order). -/
def nubAux : List String → List String → List String
  | _, [] => []
  | seen, x :: xs =>
    if x ∈ seen then nubAux seen xs else x :: nubAux (x :: seen) xs

/-- `list(set(xs))` as used by `_update_tags`. -/
def pySetList (l : List String) : List String := nubAux [] l

/-- Lexicographic comparison on code points, Python's string `<=`. -/
def lexLe : List Char → List Char → Bool
  | [], _ => true
  | _ :: _, [] => false
  | a :: as, b :: bs =>
    if a.toNat < b.toNat then true
    else if b.toNat < a.toNat then false
    else lexLe as bs

/-- String comparison used by `sorted`. -/
def strLe (a b : String) : Bool := lexLe a.data b.data

/-- Insert into a sorted list, keeping it sorted. -/
def insertSorted (x : String) : List String → List String
  | [] => [x]
  | y :: ys => if strLe x y then x :: y :: ys else y :: insertSorted x ys

/-- Python's `sorted(xs)` for strings (insertion sort; on the duplicate-free
lists it is applied to, any correct sort agrees with Python's). -/
def pySorted (l : List String) : List String := l.foldr insertSorted []

/-- `Snippet.tag_list` from `models.py`: split the stored comma string, empty
or absent giving the empty sequence. -/
def Snippet.tag_list (s : Snippet) : List String :=
  match s.tags with
  | none => []
  | some t => if t = "" then [] else splitComma t

/-- `SnippetRepository._update_tags` from `repo.py`: extend the existing tag
list with the supplied tags, deduplicate, optionally strip-and-remove each
supplied tag once, optionally sort, and re-join with commas.  (The Python
code first replaces an absent `snippet.tags` by `""`; both give the empty
existing list, and the caller overwrites `snippet.tags` with the returned
string anyway.) -/
def updateTags (snippet : Snippet) (tags : List String)
    (remove : Bool) (sort : Bool) : String :=
  let existing := snippet.tag_list ++ tags
  let existing := pySetList existing
  let existing :=
    if remove then
      tags.foldl (fun acc tg =>
        let tg := pyStrip tg
        if tg ∈ acc then acc.erase tg else acc) existing
    else existing
  let existing := if sort then pySorted existing else existing
  joinComma existing

/-- Maximum of a list of naturals with default `0`: Python's
`max(xs, default=0)` (order of traversal is irrelevant for `max`). -/
def listMax (l : List Nat) : Nat := l.foldr max 0

/-- `InMemorySnippetRepo` from `repo.py`: a mapping from integer id to
snippet, modelled as an insertion-ordered association list (Python dicts
preserve insertion order and have unique keys). -/
structure InMemorySnippetRepo where
  snippets : List (Nat × Snippet)
deriving DecidableEq, Repr

namespace InMemorySnippetRepo

/-- The keys of the mapping, in insertion order. -/
def keys (r : InMemorySnippetRepo) : List Nat := r.snippets.map Prod.fst

/-- `InMemorySnippetRepo.add`: assign `max(keys, default=0) + 1` as the new
id, store the snippet under it, and return the updated repository together
with the stored snippet (the Python code mutates the argument in place). -/
def add (r : InMemorySnippetRepo) (s : Snippet) :
    InMemorySnippetRepo × Snippet :=
  let nextId := listMax r.keys + 1
  let s' := { s with id := some nextId }
  (⟨r.snippets ++ [(nextId, s')]⟩, s')

/-- `InMemorySnippetRepo.get`: return the stored snippet, or `none` when the
id is absent (this back-end returns a sentinel instead of raising). -/
def get (r : InMemorySnippetRepo) (id : Nat) : Option Snippet :=
  r.snippets.lookup id

/-- Dictionary assignment `self.snippets[id] = s`: replace the value at an
existing key in place, or append a fresh key. -/
def setSnippet (r : InMemorySnippetRepo) (id : Nat) (s : Snippet) :
    InMemorySnippetRepo :=
  if r.keys.contains id then
    ⟨r.snippets.map (fun p => if p.1 = id then (id, s) else p)⟩
  else ⟨r.snippets ++ [(id, s)]⟩

/-- `InMemorySnippetRepo.delete`: raise not-found on a missing id, otherwise
remove the entry. -/
def delete (r : InMemorySnippetRepo) (id : Nat) :
    Except RepoError InMemorySnippetRepo :=
  if r.keys.contains id then
    .ok ⟨r.snippets.filter (fun p => p.1 != id)⟩
  else .error (.notFound (notFoundMsg id))

/-- `InMemorySnippetRepo.tag`: look the snippet up (sentinel-returning `get`),
then raise the invalid-input error when `remove` is set with zero tags —
note this check precedes the not-found check — then rewrite the tag
string via `_update_tags` and store the snippet back. -/
def tag (r : InMemorySnippetRepo) (id : Nat) (tags : List String)
    (remove : Bool) (sort : Bool) : Except RepoError InMemorySnippetRepo :=
  let s? := r.get id
  if remove && tags.isEmpty then
    .error (.invalidInput "No tags provided to remove.")
  else
    match s? with
    | none => .error (.notFound (notFoundMsg id))
    | some s =>
      .ok (r.setSnippet id { s with tags := some (updateTags s tags remove sort) })

end InMemorySnippetRepo

/-- The rows of the `DBSnippetRepo` back-end's table (every persisted row
carries an id assigned by the database). -/
abbrev DBState := List Snippet

/-- Replace the first snippet carrying the given id (the object the Python
code found, mutated in place before the session commit). -/
def replaceFirstById (id : Nat) (f : Snippet → Snippet) :
    List Snippet → List Snippet
  | [] => []
  | s :: rest =>
    if s.id == some id then f s :: rest
    else s :: replaceFirstById id f rest

/-- `DBSnippetRepo.get`: primary-key lookup, raising not-found on a miss. -/
def dbGet (db : DBState) (id : Nat) : Except RepoError Snippet :=
  match db.find? (fun s => s.id == some id) with
  | some s => .ok s
  | none => .error (.notFound (notFoundMsg id))

/-- `DBSnippetRepo.tag`: select the row, raise not-found on a miss, rewrite
the tag string via `_update_tags` and commit.  There is no zero-tag check in
this back-end. -/
def dbTag (db : DBState) (id : Nat) (tags : List String)
    (remove : Bool) (sort : Bool) : Except RepoError DBState :=
  match db.find? (fun s => s.id == some id) with
  | none => .error (.notFound (notFoundMsg id))
  | some s =>
    .ok (replaceFirstById id
      (fun _ => { s with tags := some (updateTags s tags remove sort) }) db)

/-- `DBSnippetRepo.search`: scan all rows, keeping those whose lowered title
or code contains the lowered term, filtered by language equality when a
language is supplied. -/
def dbSearch (db : DBState) (term : String) (language : Option Language) :
    List Snippet :=
  db.filter (fun s =>
    (containsSub (pyLower term).data (pyLower s.title).data
      || containsSub (pyLower term).data (pyLower s.code).data)
    && (match language with
        | none => true
        | some l => s.language == l))

/-- The decoded contents of the `JSONSnippetRepo` back-end's file. -/
abbrev JSONState := List Snippet

/-- `JSONSnippetRepo.add`: when the snippet has no pre-set id, assign
`max(ids, default=0) + 1` and stamp both timestamps with the two
`datetime.now()` readings; otherwise append the snippet untouched. -/
def jsonAdd (snips : JSONState) (s : Snippet) (now1 now2 : DateTime) :
    JSONState × Snippet :=
  match s.id with
  | none =>
    let nextId := listMax (snips.filterMap Snippet.id) + 1
    let s' := { s with id := some nextId, created_at := some now1,
                       updated_at := some now2 }
    (snips ++ [s'], s')
  | some _ => (snips ++ [s], s)

/-- `JSONSnippetRepo.get`: first snippet with the id, raising not-found when
the scan finds none. -/
def jsonGet (snips : JSONState) (id : Nat) : Except RepoError Snippet :=
  match snips.find? (fun s => s.id == some id) with
  | some s => .ok s
  | none => .error (.notFound (notFoundMsg id))

/-- `JSONSnippetRepo.delete`: delete the first snippet with the id, raising
not-found when the scan finds none. -/
def jsonDelete (snips : JSONState) (id : Nat) : Except RepoError JSONState :=
  match snips with
  | [] => .error (.notFound (notFoundMsg id))
  | s :: rest =>
    if s.id == some id then .ok rest
    else (jsonDelete rest id).map (s :: ·)

/-- `JSONSnippetRepo.search`: strip and lower the term first, then keep the
snippets whose lowered title or code contains it, filtered by language
equality when a language is supplied. -/
def jsonSearch (snips : JSONState) (term : String)
    (language : Option Language) : List Snippet :=
  let t := pyLower (pyStrip term)
  snips.filter (fun s =>
    (containsSub t.data (pyLower s.title).data
      || containsSub t.data (pyLower s.code).data)
    && (match language with
        | none => true
        | some l => s.language == l))

/-- `JSONSnippetRepo.tag`: find the snippet, raise not-found on a miss,
rewrite the tag string via `_update_tags` and save the file.  There is no
zero-tag check in this back-end. -/
def jsonTag (snips : JSONState) (id : Nat) (tags : List String)
    (remove : Bool) (sort : Bool) : Except RepoError JSONState :=
  match snips.find? (fun s => s.id == some id) with
  | none => .error (.notFound (notFoundMsg id))
  | some s =>
    .ok (replaceFirstById id
      (fun _ => { s with tags := some (updateTags s tags remove sort) }) snips)

/-- The keyword arguments accepted by the raw `Snippet` constructor.  For
`created_at` / `updated_at` an omitted argument (`none`) differs from an
explicitly supplied Python `None` (`some none`), because their class-level
defaults are not `None`: `Field(default=datetime.now())` captured one fixed
instant when the model class was defined.  For `id` / `description` / `tags`
the class-level default is `None`, so a plain `Option` suffices. -/
structure SnippetKwargs where
  title : String
  code : String
  language : Language
  id : Option Nat := none
  description : Option String := none
  tags : Option String := none
  favorite : Bool := false
  created_at : Option (Option DateTime) := none
  updated_at : Option (Option DateTime) := none
deriving DecidableEq, Repr

/-- The raw `Snippet` constructor (`Snippet.__init__`): field assignment with
class-level defaults (`classDefTime` is the instant captured by
`Field(default=datetime.now())` at class definition), followed by the
back-fill of a `None` timestamp with `datetime.now()` at construction
(`now`). -/
def Snippet.init (kw : SnippetKwargs) (classDefTime now : DateTime) : Snippet :=
  let ca : Option DateTime :=
    match kw.created_at with
    | none => some classDefTime
    | some v => v
  let ua : Option DateTime :=
    match kw.updated_at with
    | none => some classDefTime
    | some v => v
  { id := kw.id, title := kw.title, code := kw.code,
    description := kw.description, language := kw.language,
    tags := kw.tags, favorite := kw.favorite,
    created_at := match ca with | none => some now | some t => some t,
    updated_at := match ua with | none => some now | some t => some t }

/-- `Snippet.create`: raw construction followed by stamping `updated_at` and
`created_at` with the two `datetime.now()` readings (`tU` then `tC`),
overriding whatever the keyword arguments carried. -/
def Snippet.create (kw : SnippetKwargs)
    (classDefTime ctorNow tU tC : DateTime) : Snippet :=
  let s := Snippet.init kw classDefTime ctorNow
  { s with updated_at := some tU, created_at := some tC }

/-- `Snippet.create_snippet`: reject titles shorter than 3 characters with
the invalid-input error, otherwise delegate to `create` (no timestamp
arguments can be supplied through this path). -/
def Snippet.create_snippet (title code : String) (language : Language)
    (description : Option String) (tags : Option String) (favorite : Bool)
    (classDefTime ctorNow tU tC : DateTime) : Except RepoError Snippet :=
  if title.length < 3 then
    .error (.invalidInput "Title must be at least 3 characters long.")
  else
    .ok (Snippet.create
      { title := title, code := code, language := language,
        description := description, tags := tags, favorite := favorite }
      classDefTime ctorNow tU tC)

/-- Outcome of one HTTP route handler: a normal JSON response (body modelled
as a list of string fields), a raised `HTTPException`, or an exception that
escaped the handler unhandled. -/
inductive ApiResult where
  | response (status : Nat) (body : List (String × String))
  | httpError (status : Nat) (detail : String)
  | unhandled (msg : String)
deriving DecidableEq, Repr

/-- What an injected repository's `get` can produce at the route boundary:
the database and JSON back-ends raise not-found (`Except.error`), the
in-memory back-end returns the sentinel (`Except.ok none`). -/
abbrev GetOutcome := Except RepoError (Option Snippet)

/-- The `GET /snippets/{id}` handler (`read_snippet` in `api.py`): it does
not catch the repository's not-found error (an error from `get` escapes
unhandled); a sentinel from `get` produces the 404; otherwise the snippet is
returned (body modelled coarsely by its title field). -/
def read_snippet (g : GetOutcome) : ApiResult :=
  match g with
  | .error e => .unhandled e.msg
  | .ok none => .httpError 404 "Snippet not found"
  | .ok (some s) => .response 200 [("title", s.title)]

/-- The `POST /snippets/{id}/run` handler (`run_snippet` in `api.py`): the
not-found error raised inside the `try` block is caught and returned as a
200 response whose body carries an `error` field; a sentinel `None` makes
the attribute access `snippet.language` fail with an uncaught
`AttributeError`; with a snippet in hand the handler proceeds to the sandbox
call, whose outcome is supplied as a parameter. -/
def run_snippet (g : GetOutcome) (sandbox : Snippet → ApiResult) : ApiResult :=
  match g with
  | .error e => .response 200 [("error", e.msg)]
  | .ok none => .unhandled "AttributeError"
  | .ok (some s) => sandbox s

/-- The `get` outcome of the production repository of the API (`get_repo`
returns a `DBSnippetRepo`), lifted to the route boundary. -/
def dbGetOutcome (db : DBState) (id : Nat) : GetOutcome :=
  (dbGet db id).map some

/-- Modelled from the spec: "the stored snippets whose title or code contains
the term as a case-insensitive substring and, when a language filter is
supplied, whose language equals the filter" — the search-match predicate the
claim about `search` asserts, written from the spec's words for comparison
with the source-derived `dbSearch` / `jsonSearch`. -/
def specSearchMatch (term : String) (language : Option Language)
    (s : Snippet) : Bool :=
  (containsSub (pyLower term).data (pyLower s.title).data
    || containsSub (pyLower term).data (pyLower s.code).data)
  && (match language with
      | none => true
      | some l => s.language == l)

/-- Whether a list of snippets contains one carrying the given id. -/
def hasSnippetId (l : List Snippet) (id : Nat) : Bool :=
  l.any (fun s => s.id == some id)

/-- Whether the in-memory mapping has the given key. -/
def InMemorySnippetRepo.hasId (r : InMemorySnippetRepo) (id : Nat) : Bool :=
  r.keys.contains id

/-- Boolean classifier: is this outcome the invalid-input error? -/
def isInvalidInputErr {α : Type} : Except RepoError α → Bool
  | .error (.invalidInput _) => true
  | _ => false

lemma contains_eq_false_of_listMax_lt (l : List Nat) (a : Nat)
    (h : listMax l < a) : l.contains a = false := by
  induction l with
  | nil => rfl
  | cons x xs ih =>
    have hx : x < a := lt_of_le_of_lt (le_max_left _ _) h
    have hxs : listMax xs < a := lt_of_le_of_lt (le_max_right _ _) h
    rw [List.contains_cons, Bool.or_eq_false_iff]
    exact ⟨beq_eq_false_iff_ne.mpr (Nat.ne_of_gt hx), ih hxs⟩

lemma lookup_eq_none_of_contains_eq_false
    (l : List (Nat × Snippet)) (id : Nat)
    (h : (l.map Prod.fst).contains id = false) : List.lookup id l = none := by
  induction l with
  | nil => rfl
  | cons p rest ih =>
    rw [List.map_cons, List.contains_cons, Bool.or_eq_false_iff] at h
    simp only [List.lookup, h.1]
    exact ih h.2

lemma find?_id_eq_none (l : List Snippet) (id : Nat)
    (h : hasSnippetId l id = false) :
    l.find? (fun s => s.id == some id) = none := by
  rw [List.find?_eq_none]
  intro a ha hpa
  have hcontra : hasSnippetId l id = true := by
    unfold hasSnippetId
    exact List.any_eq_true.mpr ⟨a, ha, hpa⟩
  rw [h] at hcontra
  exact Bool.noConfusion hcontra

lemma mem_of_mem_nubAux {x : String} :
    ∀ {l seen : List String}, x ∈ nubAux seen l → x ∈ l := by
  intro l
  induction l with
  | nil => intro seen h; simp [nubAux] at h
  | cons y ys ih =>
    intro seen h
    simp only [nubAux] at h
    by_cases hy : y ∈ seen
    · rw [if_pos hy] at h
      exact List.mem_cons_of_mem _ (ih h)
    · rw [if_neg hy] at h
      rcases List.mem_cons.mp h with h' | h'
      · exact h' ▸ List.mem_cons_self _ _
      · exact List.mem_cons_of_mem _ (ih h')

lemma nubAux_append_mem {t : String} :
    ∀ (l seen : List String), (t ∈ seen ∨ t ∈ l) →
      nubAux seen (l ++ [t]) = nubAux seen l := by
  intro l
  induction l with
  | nil =>
    intro seen h
    have ht : t ∈ seen := h.resolve_right (by simp)
    simp [nubAux, ht]
  | cons y ys ih =>
    intro seen h
    simp only [List.cons_append, nubAux]
    by_cases hy : y ∈ seen
    · rw [if_pos hy, if_pos hy]
      refine ih seen ?_
      rcases h with h | h
      · exact Or.inl h
      · rcases List.mem_cons.mp h with h' | h'
        · exact Or.inl (h' ▸ hy)
        · exact Or.inr h'
    · rw [if_neg hy, if_neg hy]
      refine congrArg (y :: ·) (ih (y :: seen) ?_)
      rcases h with h | h
      · exact Or.inl (List.mem_cons_of_mem _ h)
      · rcases List.mem_cons.mp h with h' | h'
        · exact Or.inl (h' ▸ List.mem_cons_self _ _)
        · exact Or.inr h'

lemma nubAux_append_not_mem {t : String} :
    ∀ (l seen : List String), t ∉ seen → t ∉ l →
      nubAux seen (l ++ [t]) = nubAux seen l ++ [t] := by
  intro l
  induction l with
  | nil =>
    intro seen hseen _
    simp [nubAux, hseen]
  | cons y ys ih =>
    intro seen hseen hl
    have hty : t ≠ y := fun h => hl (h ▸ List.mem_cons_self _ _)
    have htys : t ∉ ys := fun h => hl (List.mem_cons_of_mem _ h)
    simp only [List.cons_append, nubAux]
    by_cases hy : y ∈ seen
    · rw [if_pos hy, if_pos hy]
      exact ih seen hseen htys
    · rw [if_neg hy, if_neg hy]
      simp only [List.append_eq]
      rw [ih (y :: seen) (by
        intro hmem
        rcases List.mem_cons.mp hmem with h' | h'
        · exact hty h'
        · exact hseen h') htys]
      rfl

lemma pySetList_append_mem {t : String} {l : List String} (h : t ∈ l) :
    pySetList (l ++ [t]) = pySetList l :=
  nubAux_append_mem l [] (Or.inr h)

lemma pySetList_append_not_mem {t : String} {l : List String} (h : t ∉ l) :
    pySetList (l ++ [t]) = pySetList l ++ [t] :=
  nubAux_append_not_mem l [] (by simp) h

lemma not_mem_pySetList {t : String} {l : List String} (h : t ∉ l) :
    t ∉ pySetList l :=
  fun hm => h (mem_of_mem_nubAux hm)

/-- A persisted example snippet (id already assigned, no tags). -/
def exPersisted : Snippet :=
  { id := some 1, title := "Test", code := "print(1)", description := none,
    language := .python, tags := none, favorite := false,
    created_at := some 0, updated_at := some 0 }

/-- An example snippet not yet persisted (no id). -/
def exNew : Snippet :=
  { id := none, title := "Test", code := "print(1)", description := none,
    language := .python, tags := none, favorite := false,
    created_at := some 0, updated_at := some 0 }

/-- Example snippet whose stored tag string is unsorted (`"b,a"`). -/
def exBA : Snippet := { exPersisted with tags := some "b,a" }

/-- Example snippet with tags `"test2,test3,test4"` (the claimed scenario). -/
def exT234 : Snippet := { exPersisted with tags := some "test2,test3,test4" }

/-- Example snippet with sorted duplicate-free tags `"x,y"`. -/
def exXY : Snippet := { exPersisted with tags := some "x,y" }

/-- Example snippet titled `"ab"`. -/
def exAb : Snippet := { exPersisted with title := "ab", code := "xyz" }

/-- C1, counterexample: in the database and JSON-file back-ends, `tag` with
`remove = true` and zero tags on an existing snippet does not raise the
invalid-input error — it succeeds and rewrites the tag string (here to the
empty string), refuting the claim that every back-end raises. -/
theorem c1_counterexample :
    dbTag [exPersisted] 1 [] true true
      = .ok [{ exPersisted with tags := some "" }]
    ∧ jsonTag [exPersisted] 1 [] true true
      = .ok [{ exPersisted with tags := some "" }]
    ∧ isInvalidInputErr (dbTag [exPersisted] 1 [] true true) = false
    ∧ isInvalidInputErr (jsonTag [exPersisted] 1 [] true true) = false :=
  ⟨rfl, rfl, rfl, rfl⟩

/-- C1, amended: only the in-memory back-end raises the invalid-input error
"No tags provided to remove." on `tag` with `remove = true` and zero tags
(it does so for every id, the check preceding the existence check); the
database and JSON-file back-ends never raise invalid-input on such a call —
they raise not-found for a missing id and otherwise succeed. -/
theorem c1_amended (r : InMemorySnippetRepo) (db js : List Snippet)
    (id : Nat) (sort : Bool) :
    InMemorySnippetRepo.tag r id [] true sort
      = .error (.invalidInput "No tags provided to remove.")
    ∧ isInvalidInputErr (dbTag db id [] true sort) = false
    ∧ isInvalidInputErr (jsonTag js id [] true sort) = false := by
  refine ⟨?_, ?_, ?_⟩
  · simp [InMemorySnippetRepo.tag]
  · cases hfind : db.find? (fun s => s.id == some id) <;>
      simp [dbTag, hfind, isInvalidInputErr]
  · cases hfind : js.find? (fun s => s.id == some id) <;>
      simp [jsonTag, hfind, isInvalidInputErr]

/-- C2, counterexample: ids are reused after deletion.  In both the
in-memory and the JSON-file back-end, adding twice assigns ids 1 and 2;
deleting snippet 2 and adding again assigns id 2 a second time, an id
previously assigned in the same instance. -/
theorem c2_counterexample :
    (InMemorySnippetRepo.add ⟨[]⟩ exNew).2.id = some 1
    ∧ ((InMemorySnippetRepo.add ⟨[]⟩ exNew).1.add exNew).2.id = some 2
    ∧ (((InMemorySnippetRepo.add ⟨[]⟩ exNew).1.add exNew).1.delete 2
        = .ok ⟨[(1, { exNew with id := some 1 })]⟩)
    ∧ (InMemorySnippetRepo.add ⟨[(1, { exNew with id := some 1 })]⟩
        exNew).2.id = some 2
    ∧ (jsonAdd [] exNew 7 7).2.id = some 1
    ∧ (jsonAdd (jsonAdd [] exNew 7 7).1 exNew 8 8).2.id = some 2
    ∧ (jsonDelete (jsonAdd (jsonAdd [] exNew 7 7).1 exNew 8 8).1 2
        = .ok (jsonAdd [] exNew 7 7).1)
    ∧ (jsonAdd (jsonAdd [] exNew 7 7).1 exNew 9 9).2.id = some 2 :=
  ⟨rfl, rfl, rfl, rfl, rfl, rfl, rfl, rfl⟩

/-- C2, amended: in the in-memory and JSON-file back-ends, `add` assigns one
greater than the current maximum id, which is distinct from every id
currently stored in that instance; an id can nevertheless be reused after
the snippet holding the maximum id is deleted. -/
theorem c2_amended (r : InMemorySnippetRepo) (s t : Snippet)
    (js : JSONState) (n1 n2 : DateTime) :
    (r.add s).2.id = some (listMax r.keys + 1)
    ∧ r.keys.contains (listMax r.keys + 1) = false
    ∧ (jsonAdd js { t with id := none } n1 n2).2.id
        = some (listMax (js.filterMap Snippet.id) + 1)
    ∧ (js.filterMap Snippet.id).contains
        (listMax (js.filterMap Snippet.id) + 1) = false :=
  ⟨rfl,
   contains_eq_false_of_listMax_lt _ _ (Nat.lt_succ_self _),
   rfl,
   contains_eq_false_of_listMax_lt _ _ (Nat.lt_succ_self _)⟩

/-- The snippet actually appended by `jsonAdd` when the argument carries no
id: the next id is assigned and both timestamps are overwritten. -/
def jsonAddFresh (snips : JSONState) (s : Snippet) (n1 n2 : DateTime) :
    Snippet :=
  { s with
      id := some (listMax (snips.filterMap Snippet.id) + 1),
      created_at := some n1,
      updated_at := some n2 }

/-- C10: in the JSON-file back-end's `add`, a snippet without a pre-set id
is appended with the next id and both timestamps overwritten with the
current clock readings, while a snippet carrying a pre-set id is appended
with every field, timestamps included, left unchanged. -/
theorem c10_json_add_frame (snips : JSONState) (s : Snippet)
    (n1 n2 : DateTime) (k : Nat) :
    jsonAdd snips { s with id := none } n1 n2
      = (snips ++ [jsonAddFresh snips s n1 n2], jsonAddFresh snips s n1 n2)
    ∧ jsonAdd snips { s with id := some k } n1 n2
      = (snips ++ [{ s with id := some k }], { s with id := some k }) :=
  ⟨rfl, rfl⟩

/-- C3: `create_snippet` with a title of at least 3 characters succeeds, and
the produced snippet's `created_at` / `updated_at` are exactly the clock
readings taken during creation, regardless of any keyword-supplied
timestamps (the `create` conjuncts); with a shorter title it fails with the
invalid-input error "Title must be at least 3 characters long." -/
theorem c3_create_snippet (title code : String) (lang : Language)
    (description tags : Option String) (favorite : Bool)
    (kw : SnippetKwargs) (cd cn tU tC : DateTime) :
    (3 ≤ title.length →
      Snippet.create_snippet title code lang description tags favorite cd cn tU tC
        = .ok (Snippet.create
            { title := title, code := code, language := lang,
              description := description, tags := tags, favorite := favorite }
            cd cn tU tC))
    ∧ (title.length < 3 →
        Snippet.create_snippet title code lang description tags favorite cd cn tU tC
          = .error (.invalidInput "Title must be at least 3 characters long."))
    ∧ (Snippet.create kw cd cn tU tC).created_at = some tC
    ∧ (Snippet.create kw cd cn tU tC).updated_at = some tU := by
  refine ⟨?_, ?_, rfl, rfl⟩
  · intro h
    have h' : ¬ title.length < 3 := Nat.not_lt.mpr h
    simp [Snippet.create_snippet, h']
  · intro h
    simp [Snippet.create_snippet, h]

/-- Witness for C3 at the concrete titles "abc" (valid) and "Hi" (too
short). -/
theorem c3_witness :
    (Snippet.create_snippet "abc" "print(1)" Language.python none none false 0 1 5 6
      = .ok (Snippet.create
          { title := "abc", code := "print(1)", language := Language.python,
            description := none, tags := none, favorite := false } 0 1 5 6))
    ∧ (Snippet.create_snippet "Hi" "print(1)" Language.python none none false 0 1 5 6
        = .error (.invalidInput "Title must be at least 3 characters long."))
    ∧ (Snippet.create
        { title := "abc", code := "print(1)", language := Language.python,
          created_at := some (some 9), updated_at := some none }
        0 1 5 6).created_at = some 6 :=
  ⟨(c3_create_snippet "abc" "print(1)" Language.python none none false
      { title := "abc", code := "print(1)", language := Language.python }
      0 1 5 6).1 (by decide),
   (c3_create_snippet "Hi" "print(1)" Language.python none none false
      { title := "Hi", code := "print(1)", language := Language.python }
      0 1 5 6).2.1 (by decide),
   (c3_create_snippet "abc" "print(1)" Language.python none none false
      { title := "abc", code := "print(1)", language := Language.python,
        created_at := some (some 9), updated_at := some none }
      0 1 5 6).2.2.1⟩

/-- C4, counterexample: tagging a snippet with a tag it already has is not a
no-op on `tag_list` — with stored tags `"b,a"`, adding the already-present
tag `"a"` (default `sort = true`) rewrites the stored string to `"a,b"`, so
`tag_list` changes from `["b","a"]` to `["a","b"]`. -/
theorem c4_counterexample :
    "a" ∈ exBA.tag_list
    ∧ InMemorySnippetRepo.tag ⟨[(1, exBA)]⟩ 1 ["a"] false true
        = .ok ⟨[(1, { exBA with tags := some "a,b" })]⟩
    ∧ ({ exBA with tags := some "a,b" } : Snippet).tag_list = ["a", "b"]
    ∧ exBA.tag_list = ["b", "a"]
    ∧ ((({ exBA with tags := some "a,b" } : Snippet).tag_list
        == exBA.tag_list) = false) :=
  ⟨by decide, rfl, by decide, by decide, by decide⟩

/-- C4, amended: up to the canonical stored form (deduplicate, then sort
when `sort = true`), the tag-merge laws hold: adding an already-present tag
yields the same stored string as a pure rewrite of the existing tags, as
does removing an absent tag whose text carries no surrounding whitespace;
the concrete scenario holds as claimed: from tags
`"test2,test3,test4"`, removing `("test2","test3","test3")` removes each
named tag once and yields `["test4"]`. -/
theorem c4_amended (s : Snippet) (t : String) :
    (t ∈ s.tag_list → updateTags s [t] false true = updateTags s [] false true)
    ∧ (pyStrip t = t → t ∉ s.tag_list →
        updateTags s [t] true true = updateTags s [] false true)
    ∧ updateTags exT234 ["test2", "test3", "test3"] true true = "test4"
    ∧ ({ exT234 with
          tags := some (updateTags exT234 ["test2", "test3", "test3"] true true) }
            : Snippet).tag_list = ["test4"] := by
  refine ⟨?_, ?_, by decide, by decide⟩
  · intro h
    have e := pySetList_append_mem h
    simp [updateTags, e]
  · intro hstrip hmem
    have e := pySetList_append_not_mem hmem
    have hnm := not_mem_pySetList hmem
    simp only [updateTags, List.append_nil, List.foldl_cons, List.foldl_nil,
      if_true]
    rw [e, hstrip]
    simp only [List.mem_append, List.mem_singleton, or_true, if_true,
      if_pos (Or.inr rfl)]
    rw [List.erase_append_right _ hnm, List.erase_cons_head, List.append_nil]
    simp

/-- Witness for C4 at a snippet with tags `"x,y"`: adding the present tag
`"x"` and removing the absent tag `"z"` both rewrite to the same canonical
string. -/
theorem c4_witness :
    updateTags exXY ["x"] false true = updateTags exXY [] false true
    ∧ updateTags exXY ["z"] true true = updateTags exXY [] false true :=
  ⟨(c4_amended exXY "x").1 (by decide),
   (c4_amended exXY "z").2.1 (by decide) (by decide)⟩

/-- C5: the `get` contract differs across back-ends — on an id not present
in storage, the in-memory back-end returns the absent-value sentinel, while
the database and JSON-file back-ends raise the not-found error. -/
theorem c5_get_contract (m : InMemorySnippetRepo) (db js : List Snippet)
    (id : Nat) (hm : m.hasId id = false) (hdb : hasSnippetId db id = false)
    (hjs : hasSnippetId js id = false) :
    m.get id = none
    ∧ dbGet db id = .error (.notFound (notFoundMsg id))
    ∧ jsonGet js id = .error (.notFound (notFoundMsg id)) := by
  refine ⟨?_, ?_, ?_⟩
  · exact lookup_eq_none_of_contains_eq_false _ _ hm
  · simp [dbGet, find?_id_eq_none db id hdb]
  · simp [jsonGet, find?_id_eq_none js id hjs]

/-- Witness for C5 at empty storage and id 1. -/
theorem c5_witness :
    InMemorySnippetRepo.get ⟨[]⟩ 1 = none
    ∧ dbGet [] 1 = .error (.notFound (notFoundMsg 1))
    ∧ jsonGet [] 1 = .error (.notFound (notFoundMsg 1)) :=
  c5_get_contract ⟨[]⟩ [] [] 1 rfl rfl rfl

/-- C6, counterexample: the JSON-file back-end strips the term before
matching, so `search` there is not exactly "contains the term as a
case-insensitive substring": searching for `"ab "` (trailing space) returns
the snippet titled `"ab"`, whose title and code do not contain `"ab "`. -/
theorem c6_counterexample :
    jsonSearch [exAb] "ab " none = [exAb]
    ∧ specSearchMatch "ab " none exAb = false :=
  ⟨rfl, rfl⟩

/-- C6, amended: the database back-end's `search` returns exactly the stored
snippets matching the spec predicate (case-insensitive substring of title or
code, plus language equality when a filter is supplied); the JSON-file
back-end returns exactly the snippets matching that predicate for the
whitespace-stripped term. -/
theorem c6_amended (snips : List Snippet) (term : String)
    (lang : Option Language) (s : Snippet) :
    (s ∈ dbSearch snips term lang
      ↔ s ∈ snips ∧ specSearchMatch term lang s = true)
    ∧ (s ∈ jsonSearch snips term lang
        ↔ s ∈ snips ∧ specSearchMatch (pyStrip term) lang s = true) := by
  constructor
  · simp [dbSearch, specSearchMatch, List.mem_filter]
  · simp [jsonSearch, specSearchMatch, List.mem_filter]

/-- C7: with the API's production repository (the database back-end, whose
`get` raises not-found), the run route's handler catches the not-found
error for a missing id and produces a normal 200 response whose body is the
`error` field — unlike the 404 `HTTPException` convention of the other
routes, represented here by the read route's behavior on an absent
snippet. -/
theorem c7_run_route (db : DBState) (id : Nat) (sandbox : Snippet → ApiResult)
    (h : hasSnippetId db id = false) :
    run_snippet (dbGetOutcome db id) sandbox
      = .response 200 [("error", notFoundMsg id)]
    ∧ read_snippet (.ok none) = .httpError 404 "Snippet not found" := by
  refine ⟨?_, rfl⟩
  simp [run_snippet, dbGetOutcome, dbGet, find?_id_eq_none db id h,
    RepoError.msg, Except.map]

/-- Witness for C7 at an empty database and id 1. -/
theorem c7_witness :
    run_snippet (dbGetOutcome [] 1) (fun _ => .response 200 [])
      = .response 200 [("error", notFoundMsg 1)]
    ∧ read_snippet (.ok none) = .httpError 404 "Snippet not found" :=
  c7_run_route [] 1 (fun _ => .response 200 []) rfl

/-- Keyword arguments supplying only the required fields (both timestamps
omitted). -/
def exKw : SnippetKwargs :=
  { title := "Test", code := "print(1)", language := .python }

/-- C8, counterexample: with the class-definition instant 0 and construction
instant 5, a raw construction that omits `created_at` yields the
class-definition-time stamp 0, not the construction-time "now" 5; and an
explicitly supplied `None` is not preserved verbatim but back-filled
with 5. -/
theorem c8_counterexample :
    (Snippet.init exKw 0 5).created_at = some 0
    ∧ (((Snippet.init exKw 0 5).created_at == some 5) = false)
    ∧ (Snippet.init { exKw with created_at := some none } 0 5).created_at
        = some 5 :=
  ⟨rfl, rfl, rfl⟩

/-- C8, amended: the raw constructor preserves every explicitly supplied
non-absent field value verbatim; a `created_at`/`updated_at` supplied as the
absent value is back-filled with the construction-time "now"; an omitted
`created_at`/`updated_at` instead receives the fixed class-definition-time
default stamp, not the construction-time "now". -/
theorem c8_raw_constructor (kw : SnippetKwargs) (cd now t : DateTime) :
    (Snippet.init { kw with created_at := some (some t) } cd now).created_at
        = some t
    ∧ (Snippet.init { kw with created_at := some none } cd now).created_at
        = some now
    ∧ (Snippet.init { kw with created_at := none } cd now).created_at
        = some cd
    ∧ (Snippet.init { kw with updated_at := some (some t) } cd now).updated_at
        = some t
    ∧ (Snippet.init { kw with updated_at := some none } cd now).updated_at
        = some now
    ∧ (Snippet.init { kw with updated_at := none } cd now).updated_at
        = some cd
    ∧ (Snippet.init kw cd now).id = kw.id
    ∧ (Snippet.init kw cd now).title = kw.title
    ∧ (Snippet.init kw cd now).code = kw.code
    ∧ (Snippet.init kw cd now).description = kw.description
    ∧ (Snippet.init kw cd now).language = kw.language
    ∧ (Snippet.init kw cd now).tags = kw.tags
    ∧ (Snippet.init kw cd now).favorite = kw.favorite :=
  ⟨rfl, rfl, rfl, rfl, rfl, rfl, rfl, rfl, rfl, rfl, rfl, rfl, rfl⟩

/-- C9: after any successful `tag` call in any back-end the stored snippet's
`tags` field is a string (`some _`), never the absent value: each back-end
stores `some (updateTags ...)`; in particular a zero-tag call with
`remove = false` on an existing snippet succeeds in the in-memory back-end,
and the string written by such a rewrite is exactly the deduplicated
existing tags, sorted when `sort = true`. -/
theorem c9_tags_total (r : InMemorySnippetRepo) (id : Nat) (s : Snippet)
    (sort : Bool) (db js : List Snippet) (tags : List String)
    (remove : Bool) :
    (r.get id = some s →
      InMemorySnippetRepo.tag r id [] false sort
        = .ok (r.setSnippet id
            { s with tags := some (updateTags s [] false sort) }))
    ∧ (db.find? (fun u => u.id == some id) = some s →
        dbTag db id tags remove sort
          = .ok (replaceFirstById id
              (fun _ => { s with tags := some (updateTags s tags remove sort) })
              db))
    ∧ (js.find? (fun u => u.id == some id) = some s →
        jsonTag js id tags remove sort
          = .ok (replaceFirstById id
              (fun _ => { s with tags := some (updateTags s tags remove sort) })
              js))
    ∧ updateTags s [] false true = joinComma (pySorted (pySetList s.tag_list)) := by
  refine ⟨?_, ?_, ?_, ?_⟩
  · intro h
    simp [InMemorySnippetRepo.tag, h]
  · intro h
    simp [dbTag, h]
  · intro h
    simp [jsonTag, h]
  · simp [updateTags]

/-- Witness for C9 at a one-snippet repository in each back-end. -/
theorem c9_witness :
    InMemorySnippetRepo.tag ⟨[(1, exPersisted)]⟩ 1 [] false true
      = .ok ((⟨[(1, exPersisted)]⟩ : InMemorySnippetRepo).setSnippet 1
          { exPersisted with tags := some (updateTags exPersisted [] false true) })
    ∧ dbTag [exPersisted] 1 ["x"] false true
      = .ok (replaceFirstById 1
          (fun _ => { exPersisted with
                        tags := some (updateTags exPersisted ["x"] false true) })
          [exPersisted])
    ∧ jsonTag [exPersisted] 1 ["x"] true false
      = .ok (replaceFirstById 1
          (fun _ => { exPersisted with
                        tags := some (updateTags exPersisted ["x"] true false) })
          [exPersisted]) :=
  ⟨(c9_tags_total ⟨[(1, exPersisted)]⟩ 1 exPersisted true [exPersisted]
      [exPersisted] ["x"] false).1 rfl,
   (c9_tags_total ⟨[(1, exPersisted)]⟩ 1 exPersisted true [exPersisted]
      [exPersisted] ["x"] false).2.1 rfl,
   (c9_tags_total ⟨[(1, exPersisted)]⟩ 1 exPersisted false [exPersisted]
      [exPersisted] ["x"] true).2.2.1 rfl⟩

end Snipster
